import Mathlib

/-!
Verification of the infrahub-exporter core: a shallow embedding of
`metrics_exporter.py` (metric store, entry construction, Prometheus collect,
OTLP callback) and `service_discovery.py` (TTL cache, target transformation,
dot-path field extraction), together with theorems settling the specified
properties of these functions.

Python values flowing through the discovery pipeline are modelled by `JVal`
(JSON-like data: None, bool, int, str, list, dict as insertion-ordered
association list; floats are not modelled, no verified property involves
them).  Fallible code paths — places where the Python raises an uncaught
exception (`AttributeError`/`TypeError` on `.get`, indexing or iteration of a
non-dict) — are modelled with `Except Unit`.  Failures that the source
catches and logs are modelled as `Option`-valued inputs (e.g. a fetch that
raised is `none`).
-/

namespace InfrahubExporter

/-- JSON-like Python value (dicts keep insertion order as assoc lists). -/
inductive JVal where
  | vnull
  | vbool (b : Bool)
  | vint (n : Int)
  | vstr (s : String)
  | varr (elems : List JVal)
  | vobj (fields : List (String × JVal))

/-- Dictionary key lookup: first binding of `k` (assoc lists built by
`dinsert` never hold a key twice). -/
def jlookup (fields : List (String × JVal)) (k : String) : Option JVal :=
  (fields.find? (fun p => p.1 == k)).map (·.2)

/-- Python dict assignment `d[k] = v` on an insertion-ordered assoc list:
overwrite in place if the key exists, else append. -/
def dinsert (m : List (String × α)) (k : String) (v : α) : List (String × α) :=
  if m.any (fun p => p.1 == k) then m.map (fun p => if p.1 == k then (k, v) else p)
  else m ++ [(k, v)]

/-- Dictionary lookup returning `none` for a missing key. -/
def dget? (m : List (String × α)) (k : String) : Option α :=
  (m.find? (fun p => p.1 == k)).map (·.2)

/-- The key list of a dict, in insertion order. -/
def keysOf (m : List (String × α)) : List String := m.map Prod.fst

/-- Python `x is None` for a JSON-like value. -/
def JVal.isNull : JVal → Bool
  | .vnull => true
  | _ => false

mutual
/-- Python `repr` of a JSON-like value (string escaping not modelled; no
verified property depends on the repr of a string containing quotes). -/
def pyRepr : JVal → String
  | .vnull => "None"
  | .vbool b => if b then "True" else "False"
  | .vint n => toString n
  | .vstr s => "'" ++ s ++ "'"
  | .varr xs => "[" ++ pyReprList xs ++ "]"
  | .vobj fs => "\x7b" ++ pyReprFields fs ++ "\x7d"

/-- Comma-separated reprs of list elements. -/
def pyReprList : List JVal → String
  | [] => ""
  | [x] => pyRepr x
  | x :: xs => pyRepr x ++ ", " ++ pyReprList xs

/-- Comma-separated `'key': value` reprs of dict items. -/
def pyReprFields : List (String × JVal) → String
  | [] => ""
  | [(k, v)] => "'" ++ k ++ "': " ++ pyRepr v
  | (k, v) :: fs => "'" ++ k ++ "': " ++ pyRepr v ++ ", " ++ pyReprFields fs
end

/-- Python `str()` of a JSON-like value. -/
def pyStr : JVal → String
  | .vstr s => s
  | v => pyRepr v

/-- Python `.get(k, dflt)`: `AttributeError` (modelled `.error`) on a
non-dict receiver, default on a missing key. -/
def pyGet (v : JVal) (k : String) (dflt : JVal) : Except Unit JVal :=
  match v with
  | .vobj fs => .ok ((jlookup fs k).getD dflt)
  | _ => .error ()

/-- Python iteration: a list yields its elements, a dict its keys, a string
its characters; iterating anything else raises `TypeError`. -/
def pyIter : JVal → Except Unit (List JVal)
  | .varr xs => .ok xs
  | .vobj fs => .ok (fs.map (fun p => .vstr p.1))
  | .vstr s => .ok (s.data.map (fun c => .vstr (String.singleton c)))
  | _ => .error ()

/-- Contiguous-sublist test on character lists. -/
def listInfix (p : List Char) : List Char → Bool
  | [] => p.isEmpty
  | c :: tl => p.isPrefixOf (c :: tl) || listInfix p tl

/-- Python `part in s` for strings: substring containment. -/
def pyInStr (part s : String) : Bool := listInfix part.data s.data

/-- Python `path_expr.split(".")` : split a character list at every
separator occurrence, keeping empty pieces. -/
def splitChars (sep : Char) : List Char → List (List Char)
  | [] => [[]]
  | c :: cs =>
      match splitChars sep cs, c == sep with
      | r, true => [] :: r
      | [], false => [[c]]
      | h :: t, false => (c :: h) :: t

/-- `path_expr.split(".")` (service_discovery.py line 103). -/
def pySplitDot (s : String) : List String :=
  (splitChars '.' s.data).map (fun cs => String.mk cs)

/-- Python `part.endswith("[]")` (service_discovery.py line 108). -/
def strEndsWithBrk (s : String) : Bool :=
  match s.data.reverse with
  | ']' :: '[' :: _ => true
  | _ => false

/-- Python `part[:-2]` (service_discovery.py line 109). -/
def strDropLast2 (s : String) : String := String.mk (s.data.dropLast.dropLast)

/-- One edge of the connection case (service_discovery.py line 114):
`entry.get("node", \x7b\x7d).get("name", \x7b\x7d).get("value")`, then the
guard `if txt is not None` with `str(txt)` (lines 115-116). -/
def edgeNameValue (entry : JVal) : Except Unit (Option String) := do
  let node ← pyGet entry "node" (.vobj [])
  let name ← pyGet node "name" (.vobj [])
  let txt ← pyGet name "value" .vnull
  pure (match txt with
    | .vnull => none
    | v => some (pyStr v))

/-- The `for entry in arr["edges"]` accumulation (lines 113-116): collect
the stringified non-None `name.value` leaves, in order. -/
def collectEdgeVals : List JVal → Except Unit (List String)
  | [] => .ok []
  | e :: es => do
      let t ← edgeNameValue e
      let rest ← collectEdgeVals es
      pure (match t with
        | some s => s :: rest
        | none => rest)

/-- One element of the plain-sequence case (lines 118-122): a scalar is
stringified, a dict holding "value" yields its stringified leaf, anything
else contributes nothing. -/
def seqItemVal : JVal → Option String
  | .vstr s => some s
  | .vint n => some (pyStr (.vint n))
  | .vbool b => some (pyStr (.vbool b))
  | .vobj fs =>
      match jlookup fs "value" with
      | some v => some (pyStr v)
      | none => none
  | _ => none

/-- The `[]`-segment branch of `_extract_field` (lines 108-123):
`arr = current.get(arr_field)`; a dict containing "edges" is treated as a
connection, a list as a plain sequence, anything else collects nothing;
the collected values are comma-joined, and no values means `None`. -/
def arrayStep (current : JVal) (arrField : String) : Except Unit (Option String) := do
  let arr ← pyGet current arrField .vnull
  let values ←
    match arr with
    | .vobj afs =>
        match jlookup afs "edges" with
        | some edges => do
            let es ← pyIter edges
            collectEdgeVals es
        | none => pure []
    | .varr items => pure (items.filterMap seqItemVal)
    | _ => pure []
  pure (if values.isEmpty then none else some (String.intercalate "," values))

/-- The segment walk of `_extract_field` (lines 106-145), on the already
split segment list.  A plain segment descends into a matching key, else
under a "node" wrapper; `None` anywhere yields `None`; the terminal value
is stringified (a dict through its "value" leaf).  The `.error` cases are
the uncaught `TypeError`s the Python raises when the "node" wrapper is not
a dict (`part in current["node"]` or its indexing). -/
def walkParts : JVal → List String → Except Unit (Option String)
  | current, [] =>
      .ok (match current with
        | .vobj fs => (jlookup fs "value").map pyStr
        | .vstr s => some s
        | .vint n => some (pyStr (.vint n))
        | .vbool b => some (pyStr (.vbool b))
        | _ => none)
  | current, part :: rest =>
      if strEndsWithBrk part then arrayStep current (strDropLast2 part)
      else
        match current with
        | .vobj fs =>
            match jlookup fs part with
            | some next =>
                (match next with
                 | .vnull => .ok none
                 | _ => walkParts next rest)
            | none =>
                match jlookup fs "node" with
                | some (.vobj nfs) =>
                    match jlookup nfs part with
                    | some next =>
                        (match next with
                         | .vnull => .ok none
                         | _ => walkParts next rest)
                    | none => .ok none
                | some (.vstr s) => if pyInStr part s then .error () else .ok none
                | some (.varr xs) =>
                    if xs.any (fun v => match v with | .vstr s => s == part | _ => false)
                    then .error () else .ok none
                | some _ => .error ()
                | none => .ok none
        | _ => .ok none

/-- `ServiceDiscoveryManager._extract_field` (lines 101-145). -/
def extract_field (node : JVal) (pathExpr : String) : Except Unit (Option String) :=
  walkParts node (pySplitDot pathExpr)

/-- `ServiceDiscoveryQuery` (config.py lines 67-79).  `name` is always a
string: the constructor overwrites it with the stem of `file_path`. -/
structure SDQuery where
  name : String
  refreshIntervalSeconds : Int
  targetField : String
  portField : Option String
  labelMappings : List (String × String)

/-- One emitted target group `\x7b"targets": [addr], "labels": \x7b...\x7d\x7d`. -/
structure TargetGroup where
  targets : List String
  labels : List (String × JVal)

/-- `CachedTargets` (service_discovery.py lines 14-18), with the monotonic
float timestamp modelled as an integer. -/
structure CachedTargets where
  timestamp : Int
  targets : List TargetGroup

/-- The `_cache` mapping of `ServiceDiscoveryManager`. -/
abbrev SDCache := List (String × CachedTargets)

/-- Result of one `get_targets` call: returned targets, cache afterwards,
and whether `_fetch_and_transform` was invoked during the call. -/
structure GTResult where
  targets : List TargetGroup
  cache : SDCache
  didFetch : Bool

/-- `ServiceDiscoveryManager.get_targets` (lines 28-41).  `now` is the
monotonic clock reading and `fetched` the value `_fetch_and_transform`
returns if it is invoked. -/
def get_targets (q : SDQuery) (now : Int) (fetched : List TargetGroup) (c : SDCache) : GTResult :=
  if !q.name.isEmpty then
    match dget? c q.name with
    | some cached =>
        if now - cached.timestamp < q.refreshIntervalSeconds then
          ⟨cached.targets, c, false⟩
        else
          ⟨fetched, dinsert c q.name ⟨now, fetched⟩, true⟩
    | none => ⟨fetched, dinsert c q.name ⟨now, fetched⟩, true⟩
  else ⟨[], c, false⟩

/-- The optional port suffix (lines 82-85): a truthy `port_field` whose
extraction yields a truthy port turns the address into `addr:port`. -/
def applyPort (q : SDQuery) (node : JVal) (addr0 : String) : Except Unit String :=
  match q.portField with
  | some pf =>
      if pf.isEmpty then pure addr0
      else do
        let port? ← extract_field node pf
        pure (match port? with
          | some port => if port.isEmpty then addr0 else addr0 ++ ":" ++ port
          | none => addr0)
  | none => pure addr0

/-- The configured label mappings (lines 87-92): each mapping whose
extraction is not `None` assigns `labels[key] = str(val)` in order. -/
def mappedLabels (q : SDQuery) (node : JVal) : Except Unit (List (String × JVal)) :=
  q.labelMappings.foldlM
    (fun m kv => do
      let val? ← extract_field node kv.2
      pure (match val? with
        | some v => dinsert m kv.1 (JVal.vstr v)
        | none => m))
    []

/-- The two meta labels assigned after the mapping loop (lines 94-95). -/
def injectMeta (labels : List (String × JVal)) (metaId : JVal) (kindName : String) :
    List (String × JVal) :=
  dinsert (dinsert labels "__meta_infrahub_id" metaId) "__meta_infrahub_kind" (.vstr kindName)

/-- One edge of one kind block in `_fetch_and_transform` (lines 77-96):
unwrap the node, extract the required address (a falsy address drops the
row), optionally suffix the port, build the configured labels, then inject
the two meta labels (`node.get("id")` raw, then the kind name). -/
def processEdge (q : SDQuery) (kindName : String) (edge : JVal) : Except Unit (Option TargetGroup) := do
  let node ← pyGet edge "node" (.vobj [])
  let addr? ← extract_field node q.targetField
  match addr? with
  | none => pure none
  | some addr0 =>
    if addr0.isEmpty then pure none
    else do
      let addr ← applyPort q node addr0
      let labels ← mappedLabels q node
      let metaId ← pyGet node "id" .vnull
      pure (some ⟨[addr], injectMeta labels metaId kindName⟩)

/-- One top-level kind block of `_fetch_and_transform` (lines 72-96): only a
dict `data_block` with a list under "edges" produces rows. -/
def processKind (q : SDQuery) (kindName : String) (dataBlock : JVal) : Except Unit (List TargetGroup) :=
  let edges :=
    match dataBlock with
    | .vobj fs => (jlookup fs "edges").getD .vnull
    | _ => .vnull
  match edges with
  | .varr es =>
      es.foldlM
        (fun acc e => do
          let g? ← processEdge q kindName e
          pure (match g? with
            | some g => acc ++ [g]
            | none => acc))
        []
  | _ => pure []

/-- `ServiceDiscoveryManager._fetch_and_transform` (lines 43-99).
`fileContent = none` models an unreadable query file (lines 51-55),
`resp = none` an exception from `execute_graphql` (lines 57-64); otherwise
`resp` is the response dict.  An "errors" key yields the empty list; the
row construction then walks `resp.get("data", resp)`. -/
def fetch_and_transform (q : SDQuery) (fileContent : Option String)
    (resp : Option (List (String × JVal))) : Except Unit (List TargetGroup) :=
  match fileContent with
  | none => .ok []
  | some _ =>
    match resp with
    | none => .ok []
    | some r =>
      if (jlookup r "errors").isSome then .ok []
      else
        match (jlookup r "data").getD (.vobj r) with
        | .vobj kinds =>
            kinds.foldlM
              (fun acc kv => do
                let ts ← processKind q kv.1 kv.2
                pure (acc ++ ts))
              []
        | _ => .error ()

/-- A scalar Python value as held by a typed node attribute (`attr.value`). -/
inductive Scalar where
  | sNone
  | sBool (b : Bool)
  | sInt (n : Int)
  | sStr (s : String)
  deriving DecidableEq

/-- Python truthiness of a scalar. -/
def Scalar.truthy : Scalar → Bool
  | .sNone => false
  | .sBool b => b
  | .sInt n => n != 0
  | .sStr s => !s.isEmpty

/-- Python `str()` of a scalar. -/
def Scalar.toStr : Scalar → String
  | .sNone => "None"
  | .sBool b => if b then "True" else "False"
  | .sInt n => toString n
  | .sStr s => s

/-- Python `str(v or "")` (metrics_exporter.py lines 138 and 179). -/
def pyOrEmptyStr (v : Scalar) : String := if v.truthy then v.toStr else ""

/-- Python `x or ""` for an optional string
(metrics_exporter.py line 139). -/
def pyOrStrOpt (o : Option String) : String :=
  match o with
  | some s => if s.isEmpty then "" else s
  | none => ""

/-- A relationship peer as the resolver sees it: its optional
human-friendly identifier and its id. -/
structure PeerRes where
  hfid : Option String
  id : String
  deriving DecidableEq

/-- `peer.get_human_friendly_id_as_string(include_kind=True) or peer.id`
(metrics_exporter.py lines 156-159 and 171-174). -/
def PeerRes.display (p : PeerRes) : String :=
  match p.hfid with
  | some h => if h.isEmpty then p.id else h
  | none => p.id

/-- What `getattr(itm, field, None)` yields for one include field, with the
network/store effects of peer resolution already reflected in the data:
`pyNone` is an absent field, `attrVal` a scalar attribute carrying its
`.value`, `relatedNode` a single relationship (`loaded` models
`initialized`, `peer` the resolvable peer — `none` when the client store
lookup returns nothing), `relMgr` a multi relationship with its resolved
peers. -/
inductive FieldVal where
  | pyNone
  | attrVal (value : Scalar)
  | relatedNode (loaded : Bool) (peer : Option PeerRes)
  | relMgr (loaded : Bool) (peers : List PeerRes)
  deriving DecidableEq

/-- A fetched `InfrahubNode` as the resolver reads it. -/
structure Entity where
  id : Scalar
  hfid : Option String
  fields : List (String × FieldVal)
  deriving DecidableEq

/-- `getattr(itm, field, None)`. -/
def Entity.getField (e : Entity) (f : String) : FieldVal :=
  (dget? e.fields f).getD .pyNone

/-- The label value one include field contributes
(metrics_exporter.py lines 142-179): each branch computes `val` and the
label is `str(val or "")`. -/
def fieldLabelValue : FieldVal → String
  | .pyNone => ""
  | .attrVal v => pyOrEmptyStr v
  | .relatedNode loaded peer =>
      pyOrEmptyStr
        (match loaded, peer with
         | true, some p => .sStr p.display
         | _, _ => .sNone)
  | .relMgr loaded peers =>
      pyOrEmptyStr
        (if loaded then .sStr (String.intercalate "," (peers.map PeerRes.display))
         else .sNone)

/-- `MetricEntry` (metrics_exporter.py lines 24-29). -/
structure MetricEntry where
  labels : List (String × String)
  value : Int
  deriving DecidableEq

/-- The per-item body of `_fetch_and_store` (lines 136-181): the label dict
starts from `id` and `hfid`, then each include field is assigned in order;
the entry value is always 1. -/
def buildEntry (includeFields : List String) (itm : Entity) : MetricEntry :=
  { labels :=
      includeFields.foldl
        (fun lbls f => dinsert lbls f (fieldLabelValue (itm.getField f)))
        [("id", pyOrEmptyStr itm.id), ("hfid", pyOrStrOpt itm.hfid)]
    value := 1 }

/-- `MetricsKind` (config.py lines 10-15); the filter list is not involved
in any verified property and is omitted. -/
structure MetricsKind where
  kind : String
  includeFields : List String
  deriving DecidableEq

/-- The `_store` mapping from kind name to entry list. -/
abbrev Store := List (String × List MetricEntry)

/-- `MetricsExporter._fetch_and_store` (lines 106-183).  `fetchResult = none`
models a fetch ending in `SchemaNotFoundError` or any other exception
(lines 130-133): both handlers only log, so control falls through with
`items` still the empty list and line 183 runs unconditionally. -/
def fetch_and_store (kp : MetricsKind) (fetchResult : Option (List Entity))
    (store : Store) : Store :=
  let items := fetchResult.getD []
  let entries := items.map (buildEntry kp.includeFields)
  dinsert store kp.kind entries

/-- One store item rendered by `MetricsExporter.collect` (lines 87-104):
the metric family name, the label-name order, and one
(label-values, value) row per entry; `none` when no configured kind
matches. -/
def renderFamily (settings : List MetricsKind) (item : String × List MetricEntry) :
    Option (String × List String × List (List String × Int)) :=
  match settings.find? (fun k => k.kind == item.1) with
  | none => none
  | some kp =>
      let labels := "id" :: "hfid" :: kp.includeFields
      some ("infrahub_" ++ item.1.toLower ++ "_info", labels,
        item.2.map (fun e => (labels.map (fun l => (dget? e.labels l).getD ""), e.value)))

/-- `MetricsExporter.collect` (lines 85-104): iterate the store, render each
kind that has a configuration. -/
def collect (settings : List MetricsKind) (store : Store) :
    List (String × List String × List (List String × Int)) :=
  store.filterMap (renderFamily settings)

/-- `MetricMeter._otlp_callback` (lines 40-49): one observation per stored
entry of the meter's kind, the attribute dict built over
`["id", "hfid"] + include` with `entry.labels.get(label, "")`.  `none`
models the `KeyError` of `self.exporter._store[self.kp.kind]` when the kind
was never stored. -/
def otlp_callback (kp : MetricsKind) (store : Store) :
    Option (List (List (String × String) × Int)) :=
  (dget? store kp.kind).map (fun entries =>
    let labels := "id" :: "hfid" :: kp.includeFields
    entries.map (fun e =>
      (labels.foldl (fun m l => dinsert m l ((dget? e.labels l).getD "")) [], e.value)))

/-- The (label-name, label-value) set of one Prometheus row, pairing the
family's label-name order with the row's value list. -/
def rowPairs (labels : List String) (row : List String) : List (String × String) :=
  (labels.zip row).foldl (fun m p => dinsert m p.1 p.2) []

/-- The (label-set, value) pairs of one rendered family. -/
def famPairs (fam : String × List String × List (List String × Int)) :
    List (List (String × String) × Int) :=
  fam.2.2.map (fun r => (rowPairs fam.2.1 r.1, r.2))

/-! Helper lemmas about the dict operations. -/
theorem find?_map_overwrite (tl : List (String × α)) (k k' : String) (v : α)
    (h : k' ≠ k) :
    (tl.map (fun p => if p.1 == k then (k, v) else p)).find? (fun p => p.1 == k')
      = tl.find? (fun p => p.1 == k') := by
  induction tl with
  | nil => rfl
  | cons p ps ih =>
      rw [List.map_cons]
      by_cases hpk : p.1 = k
      · have hhd : (if (p.1 == k) = true then (k, v) else p) = (k, v) := by simp [hpk]
        rw [hhd]
        rw [List.find?_cons_of_neg _ (by simp; exact fun hh => h hh.symm)]
        rw [List.find?_cons_of_neg _ (by simp [hpk]; exact fun hh => h hh.symm)]
        exact ih
      · have hhd : (if (p.1 == k) = true then (k, v) else p) = p := by simp [hpk]
        rw [hhd]
        by_cases hpk' : p.1 = k'
        · rw [List.find?_cons_of_pos _ (by simp [hpk'])]
          rw [List.find?_cons_of_pos _ (by simp [hpk'])]
        · rw [List.find?_cons_of_neg _ (by simp [hpk'])]
          rw [List.find?_cons_of_neg _ (by simp [hpk'])]
          exact ih

theorem dget?_dinsert (m : List (String × α)) (k k' : String) (v : α) :
    dget? (dinsert m k v) k' = if k' = k then some v else dget? m k' := by
  induction m with
  | nil =>
      by_cases hk : k' = k
      · simp [dinsert, dget?, hk]
      · have h1 : (k == k') = false := beq_eq_false_iff_ne.mpr (Ne.symm hk)
        simp [dinsert, dget?, hk, h1]
  | cons p ps ih =>
      by_cases hpk : p.1 = k
      · have hany : ((p :: ps).any fun q => q.1 == k) = true := by simp [hpk]
        simp only [dinsert, hany, if_true, List.map_cons]
        have hhd : (if (p.1 == k) = true then (k, v) else p) = (k, v) := by simp [hpk]
        rw [hhd]
        by_cases hk : k' = k
        · simp [dget?, hk, List.find?_cons_of_pos]
        · have h1 : (k == k') = false := beq_eq_false_iff_ne.mpr (Ne.symm hk)
          have h2 : (p.1 == k') = false := by
            rw [hpk]; exact beq_eq_false_iff_ne.mpr (Ne.symm hk)
          unfold dget?
          rw [List.find?_cons_of_neg _ (by simp [h1])]
          rw [find?_map_overwrite ps k k' v hk]
          rw [if_neg hk]
          rw [List.find?_cons_of_neg _ (by simp [h2])]
      · have hp : (p.1 == k) = false := beq_eq_false_iff_ne.mpr hpk
        have hstep : dinsert (p :: ps) k v = p :: dinsert ps k v := by
          cases hany : (ps.any fun q => q.1 == k)
          · simp [dinsert, hany, hp, hpk]
          · simp [dinsert, hany, hp, hpk]
        rw [hstep]
        by_cases hpk' : p.1 = k'
        · have hk : ¬(k' = k) := fun hh => hpk (by rw [hpk', hh])
          have hpos : ((fun q : String × α => q.1 == k') p) = true := by simp [hpk']
          rw [if_neg hk]
          unfold dget?
          have e1 : List.find? (fun q : String × α => q.1 == k') (p :: dinsert ps k v) = some p :=
            List.find?_cons_of_pos _ hpos
          have e2 : List.find? (fun q : String × α => q.1 == k') (p :: ps) = some p :=
            List.find?_cons_of_pos _ hpos
          rw [e1, e2]
        · have h2 : (p.1 == k') = false := beq_eq_false_iff_ne.mpr hpk'
          unfold dget?
          rw [List.find?_cons_of_neg _ (by simp [h2])]
          rw [List.find?_cons_of_neg _ (by simp [h2])]
          unfold dget? at ih
          rw [ih]

theorem dget?_dinsert_self (m : List (String × α)) (k : String) (v : α) :
    dget? (dinsert m k v) k = some v := by
  simp [dget?_dinsert]

theorem dget?_dinsert_ne (m : List (String × α)) {k k' : String} (v : α) (h : k' ≠ k) :
    dget? (dinsert m k v) k' = dget? m k' := by
  simp [dget?_dinsert, h]

theorem keysOf_map_overwrite (m : List (String × α)) (k : String) (v : α) :
    keysOf (m.map (fun p => if p.1 == k then (k, v) else p)) = keysOf m := by
  unfold keysOf
  rw [List.map_map]
  apply List.map_congr_left
  intro p _
  by_cases hp : p.1 = k <;> simp [hp]

theorem mem_keysOf_dinsert (m : List (String × α)) (k a : String) (v : α) :
    a ∈ keysOf (dinsert m k v) ↔ a = k ∨ a ∈ keysOf m := by
  unfold dinsert
  cases hany : (m.any fun p => p.1 == k)
  · simp only [Bool.false_eq_true, if_false]
    unfold keysOf
    simp [or_comm]
  · simp only [if_true]
    rw [keysOf_map_overwrite]
    constructor
    · intro h; exact Or.inr h
    · intro h
      cases h with
      | inl h =>
          rw [List.any_eq_true] at hany
          obtain ⟨p, hp, hpe⟩ := hany
          have hpk : p.1 = k := by simpa using hpe
          subst h
          rw [← hpk]
          exact List.mem_map_of_mem Prod.fst hp
      | inr h => exact h

theorem nodup_keysOf_dinsert (m : List (String × α)) (k : String) (v : α)
    (h : (keysOf m).Nodup) : (keysOf (dinsert m k v)).Nodup := by
  unfold dinsert
  cases hany : (m.any fun p => p.1 == k)
  · simp only [Bool.false_eq_true, if_false]
    unfold keysOf
    rw [List.map_append]
    have hk : k ∉ keysOf m := by
      intro hmem
      obtain ⟨p, hp, hpe⟩ := List.mem_map.mp hmem
      rw [List.any_eq_false] at hany
      exact absurd (by simp [hpe]) (hany p hp)
    simp only [List.map_cons, List.map_nil]
    rw [List.nodup_append]
    refine ⟨h, List.nodup_singleton k, ?_⟩
    intro a ha hak
    exact hk ((List.mem_singleton.mp hak) ▸ ha)
  · simp only [if_true]
    rw [keysOf_map_overwrite]
    exact h

theorem dget?_foldl_dinsert_not_mem (l : List String) (g : String → α) (m : List (String × α))
    (f : String) (h : f ∉ l) :
    dget? (l.foldl (fun acc x => dinsert acc x (g x)) m) f = dget? m f := by
  induction l generalizing m with
  | nil => rfl
  | cons x xs ih =>
      rw [List.foldl_cons]
      have hfx : f ≠ x := fun hh => h (hh ▸ List.mem_cons_self x xs)
      rw [ih _ (fun hh => h (List.mem_cons_of_mem x hh))]
      exact dget?_dinsert_ne m (g x) hfx

theorem dget?_foldl_dinsert_mem (l : List String) (g : String → α) (m : List (String × α))
    (f : String) (h : f ∈ l) :
    dget? (l.foldl (fun acc x => dinsert acc x (g x)) m) f = some (g f) := by
  induction l generalizing m with
  | nil => cases h
  | cons x xs ih =>
      rw [List.foldl_cons]
      by_cases hx : f ∈ xs
      · exact ih _ hx
      · have hfx : f = x := by
          cases List.mem_cons.mp h with
          | inl hh => exact hh
          | inr hh => exact absurd hh hx
        rw [dget?_foldl_dinsert_not_mem xs g _ f hx]
        subst hfx
        exact dget?_dinsert_self m f (g f)

theorem mem_keysOf_foldl_dinsert (l : List String) (g : String → α) (m : List (String × α))
    (a : String) :
    a ∈ keysOf (l.foldl (fun acc x => dinsert acc x (g x)) m) ↔ a ∈ l ∨ a ∈ keysOf m := by
  induction l generalizing m with
  | nil => simp
  | cons x xs ih =>
      rw [List.foldl_cons, ih, mem_keysOf_dinsert]
      simp [List.mem_cons]
      tauto

theorem nodup_keysOf_foldl_dinsert (l : List String) (g : String → α) (m : List (String × α))
    (h : (keysOf m).Nodup) :
    (keysOf (l.foldl (fun acc x => dinsert acc x (g x)) m)).Nodup := by
  induction l generalizing m with
  | nil => exact h
  | cons x xs ih => exact ih _ (nodup_keysOf_dinsert m x (g x) h)

theorem zip_map_foldl_dinsert (labels : List String) (f : String → String)
    (m : List (String × String)) :
    ((labels.zip (labels.map f)).foldl (fun acc p => dinsert acc p.1 p.2) m)
      = labels.foldl (fun acc l => dinsert acc l (f l)) m := by
  induction labels generalizing m with
  | nil => rfl
  | cons x xs ih =>
      rw [List.map_cons, List.zip_cons_cons, List.foldl_cons, List.foldl_cons]
      exact ih _

/-- Reduction of `get_targets` on a cache miss: fetch, cache, return. -/
theorem get_targets_miss (q : SDQuery) (now : Int) (fetched : List TargetGroup)
    (c : SDCache) (hname : q.name.isEmpty = false) (hmiss : dget? c q.name = none) :
    get_targets q now fetched c = ⟨fetched, dinsert c q.name ⟨now, fetched⟩, true⟩ := by
  unfold get_targets
  rw [hname]
  simp [hmiss]

/-- Reduction of `get_targets` on a fresh cache hit: cached result, no fetch. -/
theorem get_targets_hit (q : SDQuery) (now : Int) (fetched : List TargetGroup)
    (c : SDCache) (e : CachedTargets) (hname : q.name.isEmpty = false)
    (hhit : dget? c q.name = some e)
    (hfresh : now - e.timestamp < q.refreshIntervalSeconds) :
    get_targets q now fetched c = ⟨e.targets, c, false⟩ := by
  unfold get_targets
  rw [hname]
  simp [hhit, hfresh]

/-- Reduction of `get_targets` on an expired cache entry: refetch, recache. -/
theorem get_targets_expired (q : SDQuery) (now : Int) (fetched : List TargetGroup)
    (c : SDCache) (e : CachedTargets) (hname : q.name.isEmpty = false)
    (hhit : dget? c q.name = some e)
    (hexp : ¬(now - e.timestamp < q.refreshIntervalSeconds)) :
    get_targets q now fetched c = ⟨fetched, dinsert c q.name ⟨now, fetched⟩, true⟩ := by
  unfold get_targets
  rw [hname]
  simp [hhit, hexp]

/-! Claim C1: store preservation on fetch failure. -/

/-- A concrete prior store in which kind Device holds one entry. -/
def c1Store : Store := [("Device", [⟨[("id", "1"), ("hfid", "Device(rtr1)")], 1⟩])]

/-- C1 counterexample: the claim states that after a failing fetch the
store's entry list for the kind equals its value before the cycle.  With a
prior non-empty entry for "Device" and a failing cycle
(`fetchResult = none`), the entry after the cycle differs from the entry
before: the claim is false at this input. -/
theorem C1_counterexample :
    dget? (fetch_and_store ⟨"Device", []⟩ none c1Store) "Device" ≠ dget? c1Store "Device" := by
  decide

/-- C1 (amended): when the fetch for a configured kind fails during a poll
cycle (schema-unknown or transport/query error), the cycle still runs the
store-update step with the empty item list, so after the cycle the store's
entry list for that kind is the empty list — the prior snapshot is
cleared, not preserved. -/
theorem C1_amended_store_cleared (kp : MetricsKind) (store : Store) :
    dget? (fetch_and_store kp none store) kp.kind = some [] := by
  unfold fetch_and_store
  simp [dget?_dinsert_self]

/-! Claim C2: behaviour of getTargets when the query file is unreadable. -/

/-- A concrete discovery query spec. -/
def c2Query : SDQuery := ⟨"q", 10, "ip", none, []⟩

/-- C2 counterexample: the claim states that a file-read failure writes no
cache entry, so the next call within the TTL retries the fetch.  In fact
`_fetch_and_transform` returns the empty list on a file-read failure and
`get_targets` caches whatever was returned: after a failing call at time 0
a cache entry exists for "q", and a second call at time 1 (within the TTL
of 10) does not fetch. -/
theorem C2_counterexample :
    fetch_and_transform c2Query none none = .ok [] ∧
    (dget? (get_targets c2Query 0 [] []).cache "q").isSome = true ∧
    (get_targets c2Query 1 [] (get_targets c2Query 0 [] []).cache).didFetch = false :=
  ⟨rfl, rfl, rfl⟩

/-- C2 (amended): if reading the query file fails, `_fetch_and_transform`
returns the empty list and `get_targets` writes a cache entry holding that
empty result with the current timestamp; a subsequent call within the TTL
window returns the cached empty list without invoking the fetch at all. -/
theorem C2_amended_failure_cached (q : SDQuery) (resp : Option (List (String × JVal)))
    (c : SDCache) (t1 t2 : Int) (r2 : List TargetGroup)
    (hname : q.name.isEmpty = false) (hmiss : dget? c q.name = none)
    (httl : t2 - t1 < q.refreshIntervalSeconds) :
    fetch_and_transform q none resp = .ok [] ∧
    (get_targets q t1 [] c).targets = [] ∧
    dget? (get_targets q t1 [] c).cache q.name = some ⟨t1, []⟩ ∧
    (get_targets q t2 r2 (get_targets q t1 [] c).cache).didFetch = false ∧
    (get_targets q t2 r2 (get_targets q t1 [] c).cache).targets = [] := by
  have hc1 : get_targets q t1 [] c = ⟨[], dinsert c q.name ⟨t1, []⟩, true⟩ :=
    get_targets_miss q t1 [] c hname hmiss
  have hlk : dget? (dinsert c q.name (⟨t1, []⟩ : CachedTargets)) q.name
      = some ⟨t1, []⟩ := dget?_dinsert_self c q.name ⟨t1, []⟩
  have hc2 : get_targets q t2 r2 (dinsert c q.name ⟨t1, []⟩)
      = ⟨(⟨t1, []⟩ : CachedTargets).targets, dinsert c q.name ⟨t1, []⟩, false⟩ :=
    get_targets_hit q t2 r2 _ ⟨t1, []⟩ hname hlk httl
  refine ⟨rfl, ?_, ?_, ?_, ?_⟩
  · rw [hc1]
  · rw [hc1]; exact hlk
  · rw [hc1]; rw [hc2]
  · rw [hc1]; rw [hc2]

/-- C2 witness: the amended theorem at a concrete input (query "q",
TTL 10, failing call at time 0, second call at time 1). -/
theorem C2_witness :
    fetch_and_transform c2Query none none = .ok [] ∧
    (get_targets c2Query 0 [] []).targets = [] ∧
    dget? (get_targets c2Query 0 [] []).cache "q" = some ⟨0, []⟩ ∧
    (get_targets c2Query 1 [] (get_targets c2Query 0 [] []).cache).didFetch = false ∧
    (get_targets c2Query 1 [] (get_targets c2Query 0 [] []).cache).targets = [] :=
  C2_amended_failure_cached c2Query none [] 0 1 [] rfl rfl (by decide)

/-! Claim C6: TTL caching of getTargets. -/

/-- C6: for a query spec with a non-empty name, starting from a cache with
no entry for it, the first call fetches and caches; a second call whose
timestamp differs from the first by less than the refresh interval returns
the cached targets without fetching and leaves the cache unchanged; a
third call at or after expiry fetches exactly once more and overwrites the
cache entry with the new timestamp and result. -/
theorem C6_ttl_caching (q : SDQuery) (c0 : SDCache) (t1 t2 t3 : Int)
    (r1 r3 : List TargetGroup)
    (hname : q.name.isEmpty = false) (h0 : dget? c0 q.name = none)
    (_h12 : t1 ≤ t2) (_h23 : t2 ≤ t3)
    (hfresh : t2 - t1 < q.refreshIntervalSeconds)
    (hexp : q.refreshIntervalSeconds ≤ t3 - t1) :
    (get_targets q t1 r1 c0).didFetch = true ∧
    (get_targets q t1 r1 c0).targets = r1 ∧
    (∀ r2 : List TargetGroup,
      (get_targets q t2 r2 (get_targets q t1 r1 c0).cache).didFetch = false ∧
      (get_targets q t2 r2 (get_targets q t1 r1 c0).cache).targets = r1 ∧
      (get_targets q t2 r2 (get_targets q t1 r1 c0).cache).cache
        = (get_targets q t1 r1 c0).cache) ∧
    (get_targets q t3 r3 (get_targets q t1 r1 c0).cache).didFetch = true ∧
    (get_targets q t3 r3 (get_targets q t1 r1 c0).cache).targets = r3 ∧
    dget? (get_targets q t3 r3 (get_targets q t1 r1 c0).cache).cache q.name
      = some ⟨t3, r3⟩ := by
  have hc1 : get_targets q t1 r1 c0 = ⟨r1, dinsert c0 q.name ⟨t1, r1⟩, true⟩ :=
    get_targets_miss q t1 r1 c0 hname h0
  have hlk : dget? (dinsert c0 q.name (⟨t1, r1⟩ : CachedTargets)) q.name = some ⟨t1, r1⟩ :=
    dget?_dinsert_self c0 q.name ⟨t1, r1⟩
  have hc3 : get_targets q t3 r3 (dinsert c0 q.name ⟨t1, r1⟩)
      = ⟨r3, dinsert (dinsert c0 q.name ⟨t1, r1⟩) q.name ⟨t3, r3⟩, true⟩ :=
    get_targets_expired q t3 r3 _ ⟨t1, r1⟩ hname hlk
      (by have ht : (⟨t1, r1⟩ : CachedTargets).timestamp = t1 := rfl
          rw [ht]; omega)
  refine ⟨?_, ?_, ?_, ?_, ?_, ?_⟩
  · rw [hc1]
  · rw [hc1]
  · intro r2
    have hc2 := get_targets_hit q t2 r2 (dinsert c0 q.name ⟨t1, r1⟩) ⟨t1, r1⟩
      hname hlk (by have ht : (⟨t1, r1⟩ : CachedTargets).timestamp = t1 := rfl
                    rw [ht]; omega)
    refine ⟨?_, ?_, ?_⟩
    · rw [hc1, hc2]
    · rw [hc1, hc2]
    · rw [hc1, hc2]
  · rw [hc1, hc3]
  · rw [hc1, hc3]
  · rw [hc1, hc3]
    exact dget?_dinsert_self (dinsert c0 q.name ⟨t1, r1⟩) q.name ⟨t3, r3⟩

/-- A concrete discovery query for the C6 witness. -/
def c6Query : SDQuery := ⟨"disc", 10, "ip", none, []⟩

/-- C6 witness: the theorem at concrete times 0, 5, 10 with TTL 10. -/
theorem C6_witness :
    (get_targets c6Query 0 [] []).didFetch = true ∧
    (get_targets c6Query 5 [⟨["x"], []⟩] (get_targets c6Query 0 [] []).cache).didFetch = false ∧
    (get_targets c6Query 5 [⟨["x"], []⟩] (get_targets c6Query 0 [] []).cache).targets = [] ∧
    (get_targets c6Query 10 [⟨["10.0.0.1"], []⟩]
        (get_targets c6Query 0 [] []).cache).didFetch = true ∧
    dget? (get_targets c6Query 10 [⟨["10.0.0.1"], []⟩]
        (get_targets c6Query 0 [] []).cache).cache "disc"
      = some ⟨10, [⟨["10.0.0.1"], []⟩]⟩ := by
  have h := C6_ttl_caching c6Query [] 0 5 10 [] [⟨["10.0.0.1"], []⟩]
    rfl rfl (by decide) (by decide) (by decide) (by decide)
  exact ⟨h.1, (h.2.2.1 [⟨["x"], []⟩]).1, (h.2.2.1 [⟨["x"], []⟩]).2.1,
    h.2.2.2.1, h.2.2.2.2.2⟩

/-! Claim C3: pull rendering and push tick agree. -/

/-- C3: for any store snapshot and any configured kind (the configuration
found for that kind name), the Prometheus family rendered from the kind's
stored entries and one observable-gauge callback tick produce element-wise
identical (label-set, value) pairs, both over the label order
`[id, hfid] + includeFields`. -/
theorem C3_pull_push_agree (settings : List MetricsKind) (store : Store)
    (kp : MetricsKind) (entries : List MetricEntry)
    (hfind : settings.find? (fun k => k.kind == kp.kind) = some kp)
    (hstore : dget? store kp.kind = some entries) :
    (renderFamily settings (kp.kind, entries)).map famPairs = otlp_callback kp store := by
  unfold renderFamily otlp_callback
  rw [hfind, hstore]
  simp only [Option.map_some']
  unfold famPairs rowPairs
  simp only [List.map_map]
  congr 1
  apply List.map_congr_left
  intro e _
  simp only [Function.comp]
  rw [zip_map_foldl_dinsert]

/-- C3 witness: one configured kind Device with include field name, one
stored entry. -/
theorem C3_witness :
    (renderFamily [⟨"Device", ["name"]⟩]
        ("Device", [⟨[("id", "1"), ("hfid", "h"), ("name", "rtr1")], 1⟩])).map famPairs
      = otlp_callback ⟨"Device", ["name"]⟩
          [("Device", [⟨[("id", "1"), ("hfid", "h"), ("name", "rtr1")], 1⟩])] :=
  C3_pull_push_agree [⟨"Device", ["name"]⟩]
    [("Device", [⟨[("id", "1"), ("hfid", "h"), ("name", "rtr1")], 1⟩])]
    ⟨"Device", ["name"]⟩ [⟨[("id", "1"), ("hfid", "h"), ("name", "rtr1")], 1⟩]
    rfl rfl

/-! Claim C4: label value of an included scalar attribute. -/

/-- An entity whose attribute n carries the non-null falsy value 0. -/
def c4Entity : Entity := ⟨.sStr "1", some "h", [("n", .attrVal (.sInt 0))]⟩

/-- C4 counterexample: the claim states that a non-null attribute value is
stringified.  The integer 0 is non-null, yet `str(val or "")` maps it to
the empty string, not to "0": the claim is false at this input. -/
theorem C4_counterexample :
    c4Entity.getField "n" = .attrVal (.sInt 0) ∧
    Scalar.sInt 0 ≠ Scalar.sNone ∧
    dget? (buildEntry ["n"] c4Entity).labels "n" ≠ some ((Scalar.sInt 0).toStr) := by
  refine ⟨rfl, by decide, by decide⟩

/-- C4 (amended): for every fetched entity and every included scalar
attribute field, the label value is the stringified attribute value when
the value is truthy, and the empty string when the value is null or
otherwise falsy (0, False, the empty string). -/
theorem C4_amended_truthy (includeFields : List String) (itm : Entity)
    (f : String) (v : Scalar)
    (hmem : f ∈ includeFields) (hattr : itm.getField f = .attrVal v) :
    dget? (buildEntry includeFields itm).labels f
      = some (if v.truthy then v.toStr else "") := by
  have h := dget?_foldl_dinsert_mem includeFields
    (fun x => fieldLabelValue (itm.getField x))
    [("id", pyOrEmptyStr itm.id), ("hfid", pyOrStrOpt itm.hfid)] f hmem
  exact h.trans (by simp [hattr, fieldLabelValue, pyOrEmptyStr])

/-- An entity with a truthy string attribute for the C4 witness. -/
def c4TruthyEntity : Entity := ⟨.sStr "1", some "Device(rtr1)", [("name", .attrVal (.sStr "rtr1"))]⟩

/-- C4 witness: the amended theorem at a concrete truthy attribute. -/
theorem C4_witness :
    ("name" ∈ ["name"]) ∧
    c4TruthyEntity.getField "name" = .attrVal (.sStr "rtr1") ∧
    dget? (buildEntry ["name"] c4TruthyEntity).labels "name"
      = some (if (Scalar.sStr "rtr1").truthy then (Scalar.sStr "rtr1").toStr else "") :=
  ⟨by decide, rfl, C4_amended_truthy ["name"] c4TruthyEntity "name" (.sStr "rtr1") (by decide) rfl⟩

/-! Claim C5: the label key set of every produced entry. -/

/-- C5: every entry built from a fetched entity has label key set exactly
{id, hfid} ∪ includeFields (as string keys of a duplicate-free label
dict, each mapped to a string by construction), and entry value 1. -/
theorem C5_label_key_set (includeFields : List String) (itm : Entity) :
    ((keysOf (buildEntry includeFields itm).labels).toFinset
        = insert "id" (insert "hfid" includeFields.toFinset)) ∧
    (keysOf (buildEntry includeFields itm).labels).Nodup ∧
    (buildEntry includeFields itm).value = 1 := by
  refine ⟨?_, ?_, rfl⟩
  · ext a
    simp only [List.mem_toFinset, Finset.mem_insert]
    have h := mem_keysOf_foldl_dinsert includeFields
      (fun x => fieldLabelValue (itm.getField x))
      [("id", pyOrEmptyStr itm.id), ("hfid", pyOrStrOpt itm.hfid)] a
    have hbase : (a ∈ keysOf [("id", pyOrEmptyStr itm.id), ("hfid", pyOrStrOpt itm.hfid)])
        ↔ (a = "id" ∨ a = "hfid") := by simp [keysOf]
    constructor
    · intro ha
      rcases h.mp ha with hm | hb
      · exact Or.inr (Or.inr hm)
      · rcases hbase.mp hb with h1 | h2
        · exact Or.inl h1
        · exact Or.inr (Or.inl h2)
    · intro ha
      rcases ha with h1 | h2 | h3
      · exact h.mpr (Or.inr (hbase.mpr (Or.inl h1)))
      · exact h.mpr (Or.inr (hbase.mpr (Or.inr h2)))
      · exact h.mpr (Or.inl h3)
  · exact nodup_keysOf_foldl_dinsert includeFields
      (fun x => fieldLabelValue (itm.getField x))
      [("id", pyOrEmptyStr itm.id), ("hfid", pyOrStrOpt itm.hfid)]
      (by simp [keysOf])

/-! Claim C7: plain-segment resolution and the terminal step. -/

/-- C7: for plain (non-array) segments the walk descends into a matching
key of the current mapping, else falls back to a nested "node" mapping, and
otherwise fails with the missing marker `none` (distinct from the empty
string, last conjunct); a `None` reached by a descent also yields the
missing marker; at the terminal step a mapping containing a "value" leaf
yields that leaf stringified, a scalar stringifies itself, and anything
else is missing. -/
theorem C7_plain_segments :
    (∀ (fs : List (String × JVal)) (part : String) (rest : List String) (next : JVal),
        strEndsWithBrk part = false → jlookup fs part = some next →
        walkParts (.vobj fs) (part :: rest)
          = if next.isNull then .ok none else walkParts next rest) ∧
    (∀ (fs nfs : List (String × JVal)) (part : String) (rest : List String) (next : JVal),
        strEndsWithBrk part = false → jlookup fs part = none →
        jlookup fs "node" = some (.vobj nfs) → jlookup nfs part = some next →
        walkParts (.vobj fs) (part :: rest)
          = if next.isNull then .ok none else walkParts next rest) ∧
    (∀ (fs nfs : List (String × JVal)) (part : String) (rest : List String),
        strEndsWithBrk part = false → jlookup fs part = none →
        jlookup fs "node" = some (.vobj nfs) → jlookup nfs part = none →
        walkParts (.vobj fs) (part :: rest) = .ok none) ∧
    (∀ (fs : List (String × JVal)) (part : String) (rest : List String),
        strEndsWithBrk part = false → jlookup fs part = none →
        jlookup fs "node" = none →
        walkParts (.vobj fs) (part :: rest) = .ok none) ∧
    (∀ (fs : List (String × JVal)) (v : JVal),
        jlookup fs "value" = some v →
        walkParts (.vobj fs) [] = .ok (some (pyStr v))) ∧
    (∀ fs : List (String × JVal),
        jlookup fs "value" = none → walkParts (.vobj fs) [] = .ok none) ∧
    (∀ s : String, walkParts (.vstr s) [] = .ok (some s)) ∧
    (∀ n : Int, walkParts (.vint n) [] = .ok (some (pyStr (.vint n)))) ∧
    (∀ b : Bool, walkParts (.vbool b) [] = .ok (some (pyStr (.vbool b)))) ∧
    (∀ xs : List JVal, walkParts (.varr xs) [] = .ok none) ∧
    ((Except.ok (none : Option String) : Except Unit (Option String))
        ≠ .ok (some "")) := by
  refine ⟨?_, ?_, ?_, ?_, ?_, ?_, ?_, ?_, ?_, ?_, by simp⟩
  · intro fs part rest next hE hlk
    simp only [walkParts, hE, Bool.false_eq_true, if_false]
    rw [hlk]
    cases next <;> simp [JVal.isNull]
  · intro fs nfs part rest next hE hlk hnode hlk2
    simp only [walkParts, hE, Bool.false_eq_true, if_false, hlk, hnode, hlk2]
    cases next <;> simp [JVal.isNull]
  · intro fs nfs part rest hE hlk hnode hlk2
    simp only [walkParts, hE, Bool.false_eq_true, if_false, hlk, hnode, hlk2]
  · intro fs part rest hE hlk hnode
    simp only [walkParts, hE, Bool.false_eq_true, if_false, hlk, hnode]
  · intro fs v hv
    simp only [walkParts]
    rw [hv]
    rfl
  · intro fs hv
    simp only [walkParts]
    rw [hv]
    rfl
  · intro s; rfl
  · intro n; rfl
  · intro b; rfl
  · intro xs; rfl

/-- C7 witness: the spec's own example, document
`{"ip": {"value": "10.0.0.1"}}` with path `ip`. -/
theorem C7_witness :
    strEndsWithBrk "ip" = false ∧
    walkParts (.vobj [("ip", .vobj [("value", .vstr "10.0.0.1")])]) ["ip"]
      = .ok (some "10.0.0.1") := by
  refine ⟨rfl, ?_⟩
  have h1 := C7_plain_segments.1 [("ip", .vobj [("value", .vstr "10.0.0.1")])]
    "ip" [] (.vobj [("value", .vstr "10.0.0.1")]) rfl rfl
  have h2 := C7_plain_segments.2.2.2.2.1 [("value", .vstr "10.0.0.1")]
    (.vstr "10.0.0.1") rfl
  rw [h1]
  simp only [JVal.isNull, Bool.false_eq_true, if_false]
  exact h2

/-! Claim C9: an array segment is terminal. -/

/-- C9: a `[]`-suffixed segment returns from the walk without looking at
the remaining segments, so any segments written after it are ignored; in
particular `extract(doc, "a[].b")` equals `extract(doc, "a[]")` for every
document. -/
theorem C9_array_terminal :
    (∀ (current : JVal) (part : String) (rest rest' : List String),
        strEndsWithBrk part = true →
        walkParts current (part :: rest) = walkParts current (part :: rest')) ∧
    (∀ doc : JVal, extract_field doc "a[].b" = extract_field doc "a[]") := by
  have key : ∀ (current : JVal) (part : String) (rest rest' : List String),
      strEndsWithBrk part = true →
      walkParts current (part :: rest) = walkParts current (part :: rest') := by
    intro current part rest rest' h
    simp only [walkParts, h, if_true]
  refine ⟨key, ?_⟩
  intro doc
  show walkParts doc (pySplitDot "a[].b") = walkParts doc (pySplitDot "a[]")
  have e1 : pySplitDot "a[].b" = ["a[]", "b"] := by decide
  have e2 : pySplitDot "a[]" = ["a[]"] := by decide
  rw [e1, e2]
  exact key doc "a[]" ["b"] [] rfl

/-- C9 witness: the first conjunct at a concrete document and segments. -/
theorem C9_witness :
    strEndsWithBrk "x[]" = true ∧
    walkParts (.vobj []) ["x[]", "y"] = walkParts (.vobj []) ["x[]"] :=
  ⟨rfl, C9_array_terminal.1 (.vobj []) "x[]" ["y"] [] rfl⟩

/-! Claim C8: array-segment extraction. -/

/-- C8: for an array segment, a connection field (a dict with an "edges"
list) collects each edge's node's nested `name.value` leaf (stringified,
skipping `None` leaves) and joins the found strings with commas; a plain
sequence stringifies each scalar element or each element's "value" leaf
and joins with commas; when no values are found the result is the missing
marker `none`, not the empty string (last conjunct). -/
theorem C8_array_segment :
    (∀ (fs afs : List (String × JVal)) (part name : String) (es : List JVal)
        (rest : List String) (vals : List String),
        strEndsWithBrk part = true → strDropLast2 part = name →
        jlookup fs name = some (.vobj afs) →
        jlookup afs "edges" = some (.varr es) →
        collectEdgeVals es = .ok vals →
        walkParts (.vobj fs) (part :: rest)
          = .ok (if vals.isEmpty then none
                 else some (String.intercalate "," vals))) ∧
    (∀ (efs nfs mfs : List (String × JVal)) (v : JVal),
        jlookup efs "node" = some (.vobj nfs) →
        jlookup nfs "name" = some (.vobj mfs) →
        jlookup mfs "value" = some v → v.isNull = false →
        edgeNameValue (.vobj efs) = .ok (some (pyStr v))) ∧
    (∀ (e : JVal) (es : List JVal) (s : String) (vs : List String),
        edgeNameValue e = .ok (some s) → collectEdgeVals es = .ok vs →
        collectEdgeVals (e :: es) = .ok (s :: vs)) ∧
    (∀ (e : JVal) (es : List JVal) (vs : List String),
        edgeNameValue e = .ok none → collectEdgeVals es = .ok vs →
        collectEdgeVals (e :: es) = .ok vs) ∧
    (∀ (fs : List (String × JVal)) (part name : String) (items : List JVal)
        (rest : List String),
        strEndsWithBrk part = true → strDropLast2 part = name →
        jlookup fs name = some (.varr items) →
        walkParts (.vobj fs) (part :: rest)
          = .ok (if (items.filterMap seqItemVal).isEmpty then none
                 else some (String.intercalate "," (items.filterMap seqItemVal)))) ∧
    (∀ s : String, seqItemVal (.vstr s) = some s) ∧
    (∀ n : Int, seqItemVal (.vint n) = some (pyStr (.vint n))) ∧
    (∀ b : Bool, seqItemVal (.vbool b) = some (pyStr (.vbool b))) ∧
    (∀ (ifs : List (String × JVal)) (v : JVal),
        jlookup ifs "value" = some v → seqItemVal (.vobj ifs) = some (pyStr v)) ∧
    ((Except.ok (none : Option String) : Except Unit (Option String))
        ≠ .ok (some "")) := by
  refine ⟨?_, ?_, ?_, ?_, ?_, fun s => rfl, fun n => rfl, fun b => rfl, ?_, by simp⟩
  · intro fs afs part name es rest vals hE hD h1 h2 h3
    simp only [walkParts, hE, if_true, hD]
    unfold arrayStep
    simp only [pyGet, Bind.bind, Except.bind, h1, Option.getD, pyIter, h2, h3,
      pure, Except.pure]
  · intro efs nfs mfs v h1 h2 h3 h4
    unfold edgeNameValue
    simp only [pyGet, Bind.bind, Except.bind, h1, h2, h3, Option.getD,
      pure, Except.pure]
    cases v <;> simp_all [JVal.isNull]
  · intro e es s vs h1 h2
    simp only [collectEdgeVals, h1, h2, Bind.bind, Except.bind, pure, Except.pure]
  · intro e es vs h1 h2
    simp only [collectEdgeVals, h1, h2, Bind.bind, Except.bind, pure, Except.pure]
  · intro fs part name items rest hE hD h1
    simp only [walkParts, hE, if_true, hD]
    unfold arrayStep
    simp only [pyGet, Bind.bind, Except.bind, h1, Option.getD, pure, Except.pure]
  · intro ifs v hv
    simp only [seqItemVal, hv]

/-- One connection edge whose node's name.value leaf is the given string. -/
def c8Edge (s : String) : JVal :=
  .vobj [("node", .vobj [("name", .vobj [("value", .vstr s)])])]

/-- C8 witness: the spec's own example, two edges named x and y under
expression `a[]` yield `x,y`. -/
theorem C8_witness :
    strEndsWithBrk "a[]" = true ∧ strDropLast2 "a[]" = "a" ∧
    collectEdgeVals [c8Edge "x", c8Edge "y"] = .ok ["x", "y"] ∧
    walkParts (.vobj [("a", .vobj [("edges", .varr [c8Edge "x", c8Edge "y"])])]) ["a[]"]
      = .ok (some "x,y") := by
  refine ⟨rfl, rfl, rfl, ?_⟩
  exact C8_array_segment.1 [("a", .vobj [("edges", .varr [c8Edge "x", c8Edge "y"])])]
    [("edges", .varr [c8Edge "x", c8Edge "y"])] "a[]" "a"
    [c8Edge "x", c8Edge "y"] [] ["x", "y"] rfl rfl rfl rfl rfl

/-! Claim C10: the injected meta labels. -/

/-- C10: in every target group that `processEdge` emits, the two meta
labels are assigned after the configured label mappings, so whatever any
configured mapping wrote under those key names is overwritten:
`__meta_infrahub_id` always holds the node's raw `id` value (which is the
non-string `None` when the node has no "id" key) and
`__meta_infrahub_kind` always holds the kind name. -/
theorem C10_meta_labels (q : SDQuery) (kindName : String) (edge : JVal)
    (nfs : List (String × JVal)) (g : TargetGroup)
    (hnode : pyGet edge "node" (.vobj []) = .ok (.vobj nfs))
    (hok : processEdge q kindName edge = .ok (some g)) :
    dget? g.labels "__meta_infrahub_id" = some ((jlookup nfs "id").getD .vnull) ∧
    dget? g.labels "__meta_infrahub_kind" = some (.vstr kindName) ∧
    (jlookup nfs "id" = none → dget? g.labels "__meta_infrahub_id" = some .vnull) := by
  unfold processEdge at hok
  rw [hnode] at hok
  simp only [Bind.bind, Except.bind] at hok
  cases haddr : extract_field (.vobj nfs) q.targetField with
  | error e => rw [haddr] at hok; simp at hok
  | ok addrOpt =>
    rw [haddr] at hok
    cases addrOpt with
    | none => simp [pure, Except.pure] at hok
    | some addr0 =>
      simp only [] at hok
      cases hempty : addr0.isEmpty with
      | true => rw [hempty] at hok; simp [pure, Except.pure] at hok
      | false =>
        rw [hempty] at hok
        simp only [Bool.false_eq_true, if_false] at hok
        cases hport : applyPort q (.vobj nfs) addr0 with
        | error e => rw [hport] at hok; simp at hok
        | ok addr =>
          rw [hport] at hok
          cases hmap : mappedLabels q (.vobj nfs) with
          | error e => rw [hmap] at hok; simp at hok
          | ok lbls =>
            rw [hmap] at hok
            simp only [pyGet, pure, Except.pure] at hok
            have hg : g = ⟨[addr], injectMeta lbls ((jlookup nfs "id").getD .vnull) kindName⟩ := by
              cases hok; rfl
            subst hg
            have hne : ("__meta_infrahub_id" : String) ≠ "__meta_infrahub_kind" := by decide
            refine ⟨?_, ?_, ?_⟩
            · show dget? (injectMeta lbls ((jlookup nfs "id").getD .vnull) kindName)
                "__meta_infrahub_id" = some ((jlookup nfs "id").getD .vnull)
              unfold injectMeta
              rw [dget?_dinsert_ne _ _ hne]
              exact dget?_dinsert_self _ _ _
            · show dget? (injectMeta lbls ((jlookup nfs "id").getD .vnull) kindName)
                "__meta_infrahub_kind" = some (.vstr kindName)
              exact dget?_dinsert_self _ _ _
            · intro hid
              show dget? (injectMeta lbls ((jlookup nfs "id").getD .vnull) kindName)
                "__meta_infrahub_id" = some .vnull
              unfold injectMeta
              rw [dget?_dinsert_ne _ _ hne, hid]
              exact dget?_dinsert_self _ _ _

/-- A query whose label mappings even try to set `__meta_infrahub_id`. -/
def c10Query : SDQuery := ⟨"disc", 10, "ip", none, [("__meta_infrahub_id", "ip")]⟩

/-- The node of the C10 witness edge: it has an "ip" but no "id" key. -/
def c10Node : JVal := .vobj [("ip", .vobj [("value", .vstr "10.0.0.1")])]

/-- The target group that `processEdge` emits for the C10 witness edge. -/
def c10Group : TargetGroup :=
  ⟨["10.0.0.1"], [("__meta_infrahub_id", .vnull), ("__meta_infrahub_kind", .vstr "Device")]⟩

/-- C10 witness: despite the configured mapping writing
`__meta_infrahub_id`, the emitted group holds the raw node id — absent
here, hence the non-string None — and the kind name. -/
theorem C10_witness :
    pyGet (JVal.vobj [("node", c10Node)]) "node" (.vobj []) = .ok c10Node ∧
    processEdge c10Query "Device" (.vobj [("node", c10Node)]) = .ok (some c10Group) ∧
    dget? c10Group.labels "__meta_infrahub_id"
      = some ((jlookup [("ip", .vobj [("value", .vstr "10.0.0.1")])] "id").getD .vnull) ∧
    dget? c10Group.labels "__meta_infrahub_kind" = some (.vstr "Device") ∧
    dget? c10Group.labels "__meta_infrahub_id" = some .vnull := by
  have h := C10_meta_labels c10Query "Device" (.vobj [("node", c10Node)])
    [("ip", .vobj [("value", .vstr "10.0.0.1")])] c10Group rfl rfl
  exact ⟨rfl, rfl, h.1, h.2.1, h.2.2 rfl⟩

end InfrahubExporter
